import Mathlib

/-!
Shallow embedding of the parallel ginkgo test-orchestration program
(`main.go`): the output classifier (`parseTestResults`), the per-repository
retry/aggregation loop inside `processRepo`, the summary formatter
(`generateSummary`), the per-repository record written to the report or the
skip list, the top-level dispatch (`main`), and the bounded-concurrency
semaphore discipline.

Strings are modelled as `List Char` (a Go string is its character sequence;
Go's byte-wise lexicographic order on UTF-8 strings agrees with code-point
order, hence with the order on `List Char`).  All definitions are structural
so that concrete runs evaluate inside the kernel.
-/

/-- Character list of a string literal; Go strings are modelled as `List Char`. -/
def str (s : String) : List Char := s.data

/-- Whitespace predicate of Go's `unicode.IsSpace` (the Unicode White_Space
set), used by `strings.TrimSpace`. -/
def goIsSpace (c : Char) : Bool :=
  c = ' ' || c = '\t' || c = '\n' || (c = Char.ofNat 11) || (c = Char.ofNat 12) ||
  c = '\r' || (c = Char.ofNat 0x85) || (c = Char.ofNat 0xA0) ||
  (c = Char.ofNat 0x1680) ||
  (0x2000 ≤ c.toNat && c.toNat ≤ 0x200A) ||
  (c = Char.ofNat 0x2028) || (c = Char.ofNat 0x2029) ||
  (c = Char.ofNat 0x202F) || (c = Char.ofNat 0x205F) || (c = Char.ofNat 0x3000)

/-- Drop leading whitespace (helper for `strings.TrimSpace`). -/
def trimLeft : List Char → List Char
  | [] => []
  | c :: cs => if goIsSpace c then trimLeft cs else c :: cs

/-- Go's `strings.TrimSpace`: drop leading and trailing whitespace. -/
def trimSpace (s : List Char) : List Char :=
  trimLeft (trimLeft s.reverse).reverse

/-- Go's `strings.Split(s, sep)` for a one-character separator (the program
only splits on `"\n"` and `"/"`). Always returns at least one part. -/
def splitOnChar (sep : Char) : List Char → List (List Char)
  | [] => [[]]
  | c :: cs =>
    match splitOnChar sep cs with
    | [] => [[]]
    | l :: ls => if c = sep then [] :: l :: ls else (c :: l) :: ls

/-- Substring containment of a pattern in a line. The program's regexes
`\[FAIL\]` and `\[FLAKY\]` are literal substring matches, so
`re.MatchString(line)` is containment of the literal tag. -/
def containsSeq (pat : List Char) : List Char → Bool
  | [] => pat.isEmpty
  | c :: rest => pat.isPrefixOf (c :: rest) || containsSeq pat rest

/-- `failLineRegex.MatchString line` — the line contains the `[FAIL]` tag. -/
def failLineMatch (line : List Char) : Bool :=
  containsSeq (str "[FAIL]") line

/-- `flakyRegex.MatchString line` — the line contains the `[FLAKY]` tag
(this is the only flaky regex the program compiles). -/
def flakyMatch (line : List Char) : Bool :=
  containsSeq (str "[FLAKY]") line

/-- Body of `parseTestResults`' loop over the split lines: trim each line,
skip empty ones, and classify `[FAIL]` lines as failing, else `[FLAKY]`
lines as flaky (the `switch` checks the failure regex first). Order of
appends is preserved. -/
def classifyLines : List (List Char) → List (List Char) × List (List Char)
  | [] => ([], [])
  | l :: ls =>
    let line := trimSpace l
    let rest := classifyLines ls
    if line = [] then rest
    else if failLineMatch line then (line :: rest.1, rest.2)
    else if flakyMatch line then (rest.1, line :: rest.2)
    else rest

/-- `parseTestResults(output) (failed, flaky)`: split the raw combined
output on newlines and classify each line. -/
def parseTestResults (output : List Char) : List (List Char) × List (List Char) :=
  classifyLines (splitOnChar '\n' output)

/-- Result of `runGinkgoTests` (`cmd.CombinedOutput()`): combined output text
plus the returned error: `ok` (nil error), `exitErr code` (an
`*exec.ExitError` carrying the given exit code), or `otherErr` (a non-nil
error that is not an `*exec.ExitError`, e.g. the binary was not found). -/
inductive ExecErr where
  | ok : ExecErr
  | exitErr (code : Int) : ExecErr
  | otherErr : ExecErr
deriving DecidableEq

/-- One attempt's execution result, as returned by `runGinkgoTests`. -/
structure AttemptExec where
  output : List Char
  err : ExecErr
deriving DecidableEq

/-- The critical-error string the attempt loop derives from one attempt:
`"[COMPILATION ERROR] " + output` for exit code 2, `"[SETUP ERROR] " +
output` for exit code 3, empty otherwise (the `switch` inside
`if err != nil { if exitErr, ok := ... }`). -/
def criticalOf (a : AttemptExec) : List Char :=
  match a.err with
  | .exitErr 2 => str "[COMPILATION ERROR] " ++ a.output
  | .exitErr 3 => str "[SETUP ERROR] " ++ a.output
  | _ => []

/-- The de-duplicating merge of one attempt's parsed lines into the running
list: `for _, line := range lines { if !unique[line] { acc = append(acc,
line); unique[line] = true } }`.  The Go map is modelled by the list of keys
inserted so far (`seen`); map lookup is exact string equality. -/
def mergeLines : List (List Char) → List (List Char) → List (List Char) →
    List (List Char) × List (List Char)
  | acc, seen, [] => (acc, seen)
  | acc, seen, l :: ls =>
    if l ∈ seen then mergeLines acc seen ls
    else mergeLines (acc ++ [l]) (seen ++ [l]) ls

/-- What one iteration of the attempt loop extracts from an attempt: if the
attempt's exit status is critical the loop records the critical message and
parses nothing, otherwise it parses the output into (failing, flaky) lines. -/
def classifyAttempt (a : AttemptExec) : List (List Char) × List (List Char) × List Char :=
  let critical := criticalOf a
  if critical ≠ [] then ([], [], critical)
  else
    let (f, fl) := parseTestResults a.output
    (f, fl, critical)

/-- Final state of the attempt loop: the accumulated de-duplicated failing
and flaky lists, the critical-error message (empty when none), and how many
attempts actually executed. -/
structure LoopResult where
  failedTests : List (List Char)
  flakyTests : List (List Char)
  criticalError : List Char
  attemptsRun : Nat
deriving DecidableEq

/-- The attempt loop of `processRepo` (`for i := 0; i < 3; i++`), run over
the remaining attempts' execution results.  Arguments after the list are the
accumulators `failedTests`, `flakyTests`, the two de-duplication maps
(`uniqueFailures`, `uniqueFlaky`, as key lists), and the count of attempts
executed so far.  When an attempt yields a non-empty critical message, the
loop records it and breaks before parsing that attempt's output. -/
def attemptLoop : List AttemptExec → List (List Char) → List (List Char) →
    List (List Char) → List (List Char) → Nat → LoopResult
  | [], failed, flaky, _, _, n => ⟨failed, flaky, [], n⟩
  | a :: rest, failed, flaky, uniqF, uniqFl, n =>
    let critical := criticalOf a
    if critical ≠ [] then ⟨failed, flaky, critical, n + 1⟩
    else
      let pr := parseTestResults a.output
      let mf := mergeLines failed uniqF pr.1
      let mfl := mergeLines flaky uniqFl pr.2
      attemptLoop rest mf.1 mfl.1 mf.2 mfl.2 (n + 1)

/-- The whole three-attempt aggregation for one repository: the loop bound is
the literal 3, the attempt results are supplied by the environment `att`
(attempt `i` returns `att i`), and all accumulators start empty. -/
def processAttempts (att : Nat → AttemptExec) : LoopResult :=
  attemptLoop [att 0, att 1, att 2] [] [] [] [] 0

/-- The `for _, line := range ...` body of `generateSummary`'s two blocks:
one `"  - <line>\n"` bullet per recorded line, in order. -/
def bulletLines : List (List Char) → List Char
  | [] => []
  | l :: ls => str "  - " ++ l ++ str "\n" ++ bulletLines ls

/-- `generateSummary(failed, flaky, criticalError)`: a non-empty critical
error short-circuits into a critical block alone; otherwise the failing
block (when non-empty) then the flaky block (when non-empty); a fully empty
summary becomes the literal no-findings sentence. -/
def generateSummary (failed flaky : List (List Char)) (criticalError : List Char) :
    List Char :=
  if criticalError ≠ [] then
    str "Critical Error:\n  - " ++ criticalError ++ str "\n"
  else
    let s :=
      (if 0 < failed.length then str "Failing Tests:\n" ++ bulletLines failed else []) ++
      (if 0 < flaky.length then str "\nFlaky Tests:\n" ++ bulletLines flaky else [])
    if s.length = 0 then str "No failing or flaky tests detected." else s

/-- The statically excluded repository name (`skipRepoName`). -/
def skipRepoName : List Char := str "cluster-kube-apiserver-operator"

/-- Go's `strings.TrimSuffix`. -/
def trimSuffix (s suffix : List Char) : List Char :=
  if suffix.isSuffixOf s then s.take (s.length - suffix.length) else s

/-- `getRepoName`: last `/`-separated component of the URL with a trailing
`.git` removed. -/
def getRepoName (repoURL : List Char) : List Char :=
  trimSuffix ((splitOnChar '/' repoURL).getLastD []) (str ".git")

/-- How one repository unit ends, i.e. which single record `processRepo`
emits for it: a policy skip, a failed clone, no e2e test directory (this one
goes to the skip-list sink, the others to the report sink), a deadline
timeout, or a completed aggregation with its summary text. -/
inductive RepoRecord where
  | policySkip : RepoRecord
  | notFound : RepoRecord
  | noTestDir : RepoRecord
  | timedOut : RepoRecord
  | summary (text : List Char) : RepoRecord
deriving DecidableEq

/-- Environment of one repository unit: outcomes of the external
collaborators it calls — whether `git clone` succeeds, whether
`getTestExecutionDir` finds a usable e2e directory, whether the 3-minute
context deadline fires before the attempt goroutine signals `done` (the
winner of the `select`), and the three attempts' execution results. -/
structure RepoEnv where
  cloneSucceeds : Bool
  hasTestDir : Bool
  timesOut : Bool
  attempts : Nat → AttemptExec

/-- `processRepo` as a function of its environment, returning the repository
name and the single record the unit writes.  The checks happen in source
order: policy skip before cloning, clone failure, missing test directory,
then the `select` race between the deadline and the attempt loop. -/
def processRepo (repoURL : List Char) (env : RepoEnv) : List Char × RepoRecord :=
  let repoName := getRepoName repoURL
  (repoName,
    if repoName = skipRepoName then .policySkip
    else if env.cloneSucceeds = false then .notFound
    else if env.hasTestDir = false then .noTestDir
    else if env.timesOut then .timedOut
    else
      let r := processAttempts env.attempts
      .summary (generateSummary r.failedTests r.flakyTests r.criticalError))

/-- The exact text a record contributes to its sink: report-file entries are
`"\n<name>\n<body>\n"`, the skip-list entry is `"<name>\n"`. -/
def recordText (repoName : List Char) : RepoRecord → List Char
  | .policySkip => str "\n" ++ repoName ++ str "\nRepository skipped by policy.\n"
  | .notFound => str "\n" ++ repoName ++ str "\nRepository Not Found.\n"
  | .noTestDir => repoName ++ str "\n"
  | .timedOut =>
    str "\n" ++ repoName ++
      str "\nTest suite took too long (>3 minutes), skipping remaining attempts.\n"
  | .summary text => str "\n" ++ repoName ++ str "\n" ++ text ++ str "\n"

/-- The comparison `sort.Strings` sorts by: Go's byte-wise lexicographic
order on UTF-8 strings, which coincides with the code-point lexicographic
order on the character lists. -/
def urlLe (a b : List Char) : Bool :=
  decide (String.mk a ≤ String.mk b)

/-- `sort.Strings(repositories)`: sort the repository list lexicographically. -/
def sortRepos (repositories : List (List Char)) : List (List Char) :=
  repositories.mergeSort urlLe

/-- The dispatch phase of `main` after repository discovery: with an empty
list `main` logs and returns before `os.Create("test_report.txt")`, so no
report exists (`none`); otherwise the sorted list is dispatched and every
unit contributes exactly one record.  The records are listed here in
dispatch order; the real goroutines append them in an arbitrary
interleaving, so only permutation-invariant facts about this list reflect
the program. -/
def mainRun (repositories : List (List Char)) (envOf : List Char → RepoEnv) :
    Option (List (List Char × RepoRecord)) :=
  if repositories = [] then none
  else some ((sortRepos repositories).map (fun url => processRepo url (envOf url)))

/-- A unit environment in which everything succeeds and every attempt
produces empty output with a clean exit. -/
def cleanEnv : RepoEnv :=
  ⟨true, true, false, fun _ => ⟨[], .ok⟩⟩

/-- A unit environment in which clone and directory resolution succeed, every
attempt reports the failing line `[FAIL] A`, and the 3-minute deadline fires
before the attempt loop signals completion. -/
def timeoutEnv : RepoEnv :=
  ⟨true, true, true, fun _ => ⟨str "[FAIL] A", .ok⟩⟩

/-- State of the dispatch loop's concurrency gate: `pending` repositories not
yet dispatched, `running` goroutines started and not yet finished (each
holds one slot of the buffered channel `sem`, capacity `limit`), and
`finished` units whose deferred `<-sem` has released the slot. -/
structure DispatchState where
  pending : Nat
  running : Nat
  finished : Nat
deriving DecidableEq

/-- Transitions of the dispatcher: `spawn` is the main loop's
`sem <- struct{}{}` (which blocks unless fewer than `lim` slots are held)
immediately followed by `go processRepo(...)`; `finish` is one goroutine
returning with record `r` — its deferred `func() { <-sem }()` releases the
slot on every return path of `processRepo` (policy skip, clone failure,
missing test directory, timeout, or completed summary alike). -/
inductive DispatchStep (lim : Nat) : DispatchState → DispatchState → Prop
  | spawn (s : DispatchState) : 0 < s.pending → s.running < lim →
      DispatchStep lim s ⟨s.pending - 1, s.running + 1, s.finished⟩
  | finish (s : DispatchState) (r : RepoRecord) : 0 < s.running →
      DispatchStep lim s ⟨s.pending, s.running - 1, s.finished + 1⟩

/-- States the dispatcher can reach from `n` repositories and no unit yet
started, under concurrency limit `lim`, by any interleaving of spawns and
finishes. -/
inductive DispatchReachable (lim n : Nat) : DispatchState → Prop
  | init : DispatchReachable lim n ⟨n, 0, 0⟩
  | step {s t : DispatchState} : DispatchReachable lim n s →
      DispatchStep lim s t → DispatchReachable lim n t

/-! ### Helper lemmas -/

/-- `mergeLines` keeps the accumulated list duplicate-free and in sync with
its de-duplication map (the map's key set equals the list's elements). -/
lemma mergeLines_inv (ls : List (List Char)) :
    ∀ acc seen : List (List Char), acc.Nodup → (∀ x, x ∈ acc ↔ x ∈ seen) →
      (mergeLines acc seen ls).1.Nodup ∧
      (∀ x, x ∈ (mergeLines acc seen ls).1 ↔ x ∈ (mergeLines acc seen ls).2) := by
  induction ls with
  | nil =>
    intro acc seen h1 h2
    exact ⟨h1, h2⟩
  | cons l ls ih =>
    intro acc seen h1 h2
    by_cases hmem : l ∈ seen
    · simpa [mergeLines, hmem] using ih acc seen h1 h2
    · have hnacc : l ∉ acc := fun hx => hmem ((h2 l).1 hx)
      have h1' : (acc ++ [l]).Nodup := by
        simp [List.nodup_append, h1, hnacc]
      have h2' : ∀ x, x ∈ acc ++ [l] ↔ x ∈ seen ++ [l] := by
        intro x
        simp [List.mem_append, h2 x]
      simpa [mergeLines, hmem] using ih (acc ++ [l]) (seen ++ [l]) h1' h2'

/-- Starting from duplicate-free accumulators in sync with their maps, the
attempt loop's final failing and flaky lists are duplicate-free. -/
lemma attemptLoop_nodup (atts : List AttemptExec) :
    ∀ (failed flaky uniqF uniqFl : List (List Char)) (n : Nat),
      failed.Nodup → (∀ x, x ∈ failed ↔ x ∈ uniqF) →
      flaky.Nodup → (∀ x, x ∈ flaky ↔ x ∈ uniqFl) →
      (attemptLoop atts failed flaky uniqF uniqFl n).failedTests.Nodup ∧
      (attemptLoop atts failed flaky uniqF uniqFl n).flakyTests.Nodup := by
  induction atts with
  | nil =>
    intro failed flaky uniqF uniqFl n h1 _ h3 _
    exact ⟨h1, h3⟩
  | cons a rest ih =>
    intro failed flaky uniqF uniqFl n h1 h2 h3 h4
    by_cases hc : criticalOf a = []
    · have hmf := mergeLines_inv (parseTestResults a.output).1 failed uniqF h1 h2
      have hmfl := mergeLines_inv (parseTestResults a.output).2 flaky uniqFl h3 h4
      simpa [attemptLoop, hc] using
        ih _ _ _ _ (n + 1) hmf.1 hmf.2 hmfl.1 hmfl.2
    · simpa [attemptLoop, hc] using ⟨h1, h3⟩

/-- A first attempt with a non-empty critical message makes the loop record
that message and stop: the result keeps the incoming accumulators untouched,
counts exactly one more attempt, and does not depend on the remaining
attempts or on the critical attempt's own output lines. -/
lemma attemptLoop_critical_head (a : AttemptExec) (rest : List AttemptExec)
    (failed flaky uniqF uniqFl : List (List Char)) (n : Nat)
    (h : criticalOf a ≠ []) :
    attemptLoop (a :: rest) failed flaky uniqF uniqFl n =
      ⟨failed, flaky, criticalOf a, n + 1⟩ := by
  simp [attemptLoop, h]

/-- Closed-form description of the classifier's line loop: the failing list
is the trimmed non-empty lines containing `[FAIL]`, the flaky list is the
trimmed non-empty lines containing `[FLAKY]` but not `[FAIL]`, both in input
order. -/
lemma classifyLines_eq (lines : List (List Char)) :
    classifyLines lines =
      ((lines.map trimSpace).filter (fun l => !l.isEmpty && failLineMatch l),
       (lines.map trimSpace).filter
         (fun l => !l.isEmpty && !failLineMatch l && flakyMatch l)) := by
  induction lines with
  | nil => rfl
  | cons l ls ih =>
    by_cases h0 : trimSpace l = []
    · simp [classifyLines, ih, h0]
    · by_cases hf : failLineMatch (trimSpace l) = true
      · simp [classifyLines, ih, h0, hf]
      · by_cases hfl : flakyMatch (trimSpace l) = true
        · simp [classifyLines, ih, h0, hf, hfl]
        · simp [classifyLines, ih, h0, hf, hfl]

/-! ### Claim theorems -/

/-- C1: for every repository aggregation the accumulated failing and flaky
lists never contain duplicates — merging is an idempotent set union keyed by
exact trimmed line text with insertion order preserved — and three attempts
whose output repeats the lines `[FAIL] A`, `[FAIL] A`, `[FLAKY] B` yield
exactly the failing set `{"[FAIL] A"}` and the flaky set `{"[FLAKY] B"}`. -/
theorem claim1_dedup_aggregation :
    (∀ att : Nat → AttemptExec,
      (processAttempts att).failedTests.Nodup ∧
      (processAttempts att).flakyTests.Nodup) ∧
    processAttempts (fun _ => ⟨str "[FAIL] A\n[FAIL] A\n[FLAKY] B", .ok⟩) =
      ⟨[str "[FAIL] A"], [str "[FLAKY] B"], [], 3⟩ := by
  constructor
  · intro att
    exact attemptLoop_nodup [att 0, att 1, att 2] [] [] [] [] 0
      (by simp) (fun x => by simp) (by simp) (fun x => by simp)
  · decide

/-- C2 (counterexample): with attempts that accumulated the failing line
`[FAIL] A` and a deadline that fires, the unit's record is `timedOut` and the
written report entry does not contain the partial result `[FAIL] A` — the
partial failing/flaky sets are not written into the report entry, contrary to
the claim. -/
theorem claim2_timeout_counterexample :
    processRepo (str "https://github.com/openshift/x-operator.git") timeoutEnv =
      (str "x-operator", .timedOut) ∧
    (processAttempts timeoutEnv.attempts).failedTests = [str "[FAIL] A"] ∧
    containsSeq (str "[FAIL] A")
      (recordText (str "x-operator") .timedOut) = false := by
  exact ⟨by decide, by decide, by decide⟩

/-- C2 (amended): if the deadline elapses before the attempt loop completes,
the repository's record is `timedOut` and its report entry consists of the
repository name and the distinguishing "took too long" note only; the
failing/flaky sets accumulated so far are not part of the entry. -/
theorem claim2_timeout_amended (repoURL : List Char) (env : RepoEnv)
    (h1 : getRepoName repoURL ≠ skipRepoName)
    (h2 : env.cloneSucceeds = true) (h3 : env.hasTestDir = true)
    (h4 : env.timesOut = true) :
    (processRepo repoURL env).2 = .timedOut ∧
    recordText (getRepoName repoURL) (processRepo repoURL env).2 =
      str "\n" ++ getRepoName repoURL ++
        str "\nTest suite took too long (>3 minutes), skipping remaining attempts.\n" := by
  have ht : (processRepo repoURL env).2 = .timedOut := by
    simp [processRepo, h1, h2, h3, h4]
  refine ⟨ht, ?_⟩
  rw [ht]
  rfl

/-- C2 (witness for the amended theorem). -/
theorem claim2_timeout_witness :
    (processRepo (str "https://github.com/openshift/x-operator.git") timeoutEnv).2 =
      .timedOut ∧
    recordText (getRepoName (str "https://github.com/openshift/x-operator.git"))
      (processRepo (str "https://github.com/openshift/x-operator.git") timeoutEnv).2 =
      str "\n" ++ getRepoName (str "https://github.com/openshift/x-operator.git") ++
        str "\nTest suite took too long (>3 minutes), skipping remaining attempts.\n" :=
  claim2_timeout_amended _ timeoutEnv (by decide) rfl rfl rfl

/-- C3 (counterexample): a line carrying the `[FLAKE]` tag is not classified
as flaky (nor as failing): the program's only flaky regex is `\[FLAKY\]`, so
the `[FLAKE]` spelling is not recognized, contrary to the claim. -/
theorem claim3_flake_counterexample :
    parseTestResults (str "[FLAKE] B") = ([], []) ∧
    flakyMatch (str "[FLAKE] B") = false ∧
    failLineMatch (str "[FLAKE] B") = false := by
  exact ⟨by decide, by decide, by decide⟩

/-- C3 (amended): the classifier treats a line as a failure marker iff it
contains the `[FAIL]` tag and as a flaky marker iff it contains the `[FLAKY]`
tag (and no `[FAIL]` tag); the `[FLAKE]` spelling is not recognized. -/
theorem claim3_markers_amended :
    (∀ lines : List (List Char),
      classifyLines lines =
        ((lines.map trimSpace).filter (fun l => !l.isEmpty && failLineMatch l),
         (lines.map trimSpace).filter
           (fun l => !l.isEmpty && !failLineMatch l && flakyMatch l))) ∧
    flakyMatch (str "[FLAKE] B") = false :=
  ⟨classifyLines_eq, by decide⟩

/-- C4: an attempt whose exit status is one of the two distinguished
non-test-failure codes (2 = compilation, 3 = setup) classifies into a
non-empty critical string tagged with the kind and carrying the full raw
output, with empty failing and flaky sequences for that attempt. -/
theorem claim4_critical_attempt (a : AttemptExec) :
    (a.err = .exitErr 2 →
      classifyAttempt a = ([], [], str "[COMPILATION ERROR] " ++ a.output) ∧
      str "[COMPILATION ERROR] " ++ a.output ≠ []) ∧
    (a.err = .exitErr 3 →
      classifyAttempt a = ([], [], str "[SETUP ERROR] " ++ a.output) ∧
      str "[SETUP ERROR] " ++ a.output ≠ []) := by
  constructor
  · intro h
    have hcrit : criticalOf a = str "[COMPILATION ERROR] " ++ a.output := by
      simp [criticalOf, h]
    have hne : str "[COMPILATION ERROR] " ++ a.output ≠ [] := by
      simp [str]
    exact ⟨by simp [classifyAttempt, hcrit, hne], hne⟩
  · intro h
    have hcrit : criticalOf a = str "[SETUP ERROR] " ++ a.output := by
      simp [criticalOf, h]
    have hne : str "[SETUP ERROR] " ++ a.output ≠ [] := by
      simp [str]
    exact ⟨by simp [classifyAttempt, hcrit, hne], hne⟩

/-- C4 (witness). -/
theorem claim4_critical_witness :
    classifyAttempt ⟨str "o", .exitErr 2⟩ =
      ([], [], str "[COMPILATION ERROR] " ++ str "o") ∧
    str "[COMPILATION ERROR] " ++ str "o" ≠ [] :=
  (claim4_critical_attempt ⟨str "o", .exitErr 2⟩).1 rfl

/-- C5: the first attempt yielding a non-empty critical message terminates
the attempt loop immediately — the message is recorded, the result does not
depend on the remaining attempts, and a critical exit on attempt 1 of 3
yields the critical outcome after exactly one attempt. -/
theorem claim5_critical_short_circuit (a : AttemptExec) (rest : List AttemptExec)
    (failed flaky uniqF uniqFl : List (List Char)) (n : Nat)
    (h : criticalOf a ≠ []) :
    attemptLoop (a :: rest) failed flaky uniqF uniqFl n =
      ⟨failed, flaky, criticalOf a, n + 1⟩ ∧
    (∀ att : Nat → AttemptExec, att 0 = a →
      processAttempts att = ⟨[], [], criticalOf a, 1⟩) := by
  refine ⟨attemptLoop_critical_head a rest failed flaky uniqF uniqFl n h, ?_⟩
  intro att h0
  show attemptLoop [att 0, att 1, att 2] [] [] [] [] 0 = _
  rw [h0]
  exact attemptLoop_critical_head a [att 1, att 2] [] [] [] [] 0 h

/-- C5 (witness). -/
theorem claim5_critical_short_circuit_witness :
    attemptLoop [⟨str "boom", .exitErr 2⟩] [] [] [] [] 0 =
      ⟨[], [], criticalOf ⟨str "boom", .exitErr 2⟩, 0 + 1⟩ ∧
    (∀ att : Nat → AttemptExec, att 0 = ⟨str "boom", .exitErr 2⟩ →
      processAttempts att = ⟨[], [], criticalOf ⟨str "boom", .exitErr 2⟩, 1⟩) :=
  claim5_critical_short_circuit ⟨str "boom", .exitErr 2⟩ [] [] [] [] [] 0 (by decide)

/-- C6 (counterexample): with an empty discovered repository list, `main`
returns before `os.Create("test_report.txt")`, so no report file exists at
the end — contrary to the claim that the report exists even then. -/
theorem claim6_empty_counterexample :
    mainRun [] (fun _ => cleanEnv) = none := by
  rfl

/-- C6 (amended): for every run with a non-empty repository list the final
report exists, and (counting the report file and the skip list together)
it lists every attempted repository exactly once — the recorded names are a
permutation of the attempted names, each with exactly one record, with no
duplicates when the attempted names are distinct.  With an empty discovered
list the program returns before creating the report. -/
theorem claim6_report_amended (repositories : List (List Char))
    (envOf : List Char → RepoEnv) (h : repositories ≠ []) :
    ∃ entries, mainRun repositories envOf = some entries ∧
      entries = (sortRepos repositories).map (fun url => processRepo url (envOf url)) ∧
      (entries.map Prod.fst).Perm (repositories.map getRepoName) ∧
      ((repositories.map getRepoName).Nodup → (entries.map Prod.fst).Nodup) := by
  refine ⟨(sortRepos repositories).map (fun url => processRepo url (envOf url)),
    by simp [mainRun, h], rfl, ?_, ?_⟩
  · have hmap :
        ((sortRepos repositories).map
            (fun url => processRepo url (envOf url))).map Prod.fst =
          (sortRepos repositories).map getRepoName := by
      simp only [List.map_map]
      rfl
    rw [hmap]
    exact (List.mergeSort_perm repositories urlLe).map getRepoName
  · intro hn
    have hmap :
        ((sortRepos repositories).map
            (fun url => processRepo url (envOf url))).map Prod.fst =
          (sortRepos repositories).map getRepoName := by
      simp only [List.map_map]
      rfl
    rw [hmap]
    exact (((List.mergeSort_perm repositories urlLe).map getRepoName).symm).nodup hn

/-- C6 (witness for the amended theorem). -/
theorem claim6_report_witness :
    ∃ entries,
      mainRun [str "https://github.com/openshift/x-operator.git"]
        (fun _ => cleanEnv) = some entries ∧
      entries = (sortRepos [str "https://github.com/openshift/x-operator.git"]).map
        (fun url => processRepo url cleanEnv) ∧
      (entries.map Prod.fst).Perm
        ([str "https://github.com/openshift/x-operator.git"].map getRepoName) ∧
      (([str "https://github.com/openshift/x-operator.git"].map getRepoName).Nodup →
        (entries.map Prod.fst).Nodup) :=
  claim6_report_amended [str "https://github.com/openshift/x-operator.git"]
    (fun _ => cleanEnv) (by decide)

/-- C7: the classifier's line loop ignores lines that trim to nothing, and a
line matching both the failure and the flaky marker is classified as failing
only (the failure check comes first in the `switch`). -/
theorem claim7_blank_and_both_markers :
    (∀ lines : List (List Char), (∀ l ∈ lines, trimSpace l = []) →
      classifyLines lines = ([], [])) ∧
    (∀ l : List Char, failLineMatch (trimSpace l) = true →
      flakyMatch (trimSpace l) = true →
      classifyLines [l] = ([trimSpace l], [])) := by
  constructor
  · intro lines h
    induction lines with
    | nil => rfl
    | cons l ls ih =>
      have h0 : trimSpace l = [] := h l (List.mem_cons_self l ls)
      have hrest := ih fun x hx => h x (List.mem_cons_of_mem l hx)
      simp [classifyLines, h0, hrest]
  · intro l hf _
    have hne : trimSpace l ≠ [] := by
      intro h0
      rw [h0] at hf
      exact absurd hf (by decide)
    simp [classifyLines, hne, hf]

/-- C7 (witness). -/
theorem claim7_blank_and_both_witness :
    classifyLines [str "   ", str ""] = ([], []) ∧
    classifyLines [str " [FAIL] x [FLAKY] y "] =
      ([trimSpace (str " [FAIL] x [FLAKY] y ")], []) :=
  ⟨claim7_blank_and_both_markers.1 [str "   ", str ""] (by decide),
   claim7_blank_and_both_markers.2 (str " [FAIL] x [FLAKY] y ") (by decide) (by decide)⟩

/-- C8: the repository list is sorted lexicographically before any unit is
dispatched: the dispatch list `sortRepos repositories` is sorted under the
byte-wise string order `sort.Strings` uses and is a permutation of the
input, so scheduling order over the same input set is reproducible. -/
theorem claim8_sorted_dispatch (repositories : List (List Char)) :
    List.Sorted (fun a b => urlLe a b = true) (sortRepos repositories) ∧
    (sortRepos repositories).Perm repositories := by
  constructor
  · exact List.sorted_mergeSort
      (fun a b c h1 h2 => by
        simp only [urlLe, decide_eq_true_eq] at h1 h2 ⊢
        exact le_trans h1 h2)
      (fun a b => by
        simp only [urlLe, Bool.or_eq_true, decide_eq_true_eq]
        exact le_total _ _)
      repositories
  · exact List.mergeSort_perm repositories urlLe

/-- C9: at most `lim` repository units run concurrently: in every state the
dispatcher can reach — acquiring a semaphore slot before each unit starts and
releasing it when the unit finishes, whatever record the unit ends with —
the number of running units never exceeds the concurrency limit. -/
theorem claim9_bounded_concurrency (lim n : Nat) (s : DispatchState)
    (h : DispatchReachable lim n s) : s.running ≤ lim := by
  induction h with
  | init => exact Nat.zero_le _
  | step _ hstep ih =>
    cases hstep with
    | spawn hp hr => exact hr
    | finish r hr => exact le_trans (Nat.sub_le _ _) ih

/-- C9 (witness): with limit 2 and 5 units, the state after two spawns is
reachable and holds 2 running units, within the bound. -/
theorem claim9_bounded_concurrency_witness :
    (⟨3, 2, 0⟩ : DispatchState).running ≤ 2 :=
  claim9_bounded_concurrency 2 5 ⟨3, 2, 0⟩
    (DispatchReachable.step
      (DispatchReachable.step DispatchReachable.init
        (DispatchStep.spawn ⟨5, 0, 0⟩ (by decide) (by decide)))
      (DispatchStep.spawn ⟨4, 1, 0⟩ (by decide) (by decide)))

/-- C10: when an attempt produces a critical error, the final summary is the
critical-error block alone — failing and flaky identifiers accumulated
during earlier non-critical attempts are dropped from the report — and the
loop stops at the critical attempt without scanning its output for markers
(the accumulators pass through unchanged whatever that output contains). -/
theorem claim10_critical_summary_only (failed flaky : List (List Char))
    (c : List Char) (a : AttemptExec) (rest : List AttemptExec)
    (uniqF uniqFl : List (List Char)) (n : Nat)
    (hc : c ≠ []) (ha : criticalOf a ≠ []) :
    generateSummary failed flaky c = str "Critical Error:\n  - " ++ c ++ str "\n" ∧
    attemptLoop (a :: rest) failed flaky uniqF uniqFl n =
      ⟨failed, flaky, criticalOf a, n + 1⟩ := by
  refine ⟨?_, attemptLoop_critical_head a rest failed flaky uniqF uniqFl n ha⟩
  simp [generateSummary, hc]

/-- C10 (witness): earlier-attempt findings `[FAIL] Old` are absent from the
critical summary, and the critical attempt's `[FAIL] New` output is never
merged. -/
theorem claim10_critical_summary_witness :
    generateSummary [str "[FAIL] Old"] [] (str "[COMPILATION ERROR] boom") =
      str "Critical Error:\n  - " ++ str "[COMPILATION ERROR] boom" ++ str "\n" ∧
    attemptLoop [⟨str "[FAIL] New", .exitErr 2⟩] [str "[FAIL] Old"] [] [str "[FAIL] Old"] [] 1 =
      ⟨[str "[FAIL] Old"], [], criticalOf ⟨str "[FAIL] New", .exitErr 2⟩, 1 + 1⟩ :=
  claim10_critical_summary_only [str "[FAIL] Old"] [] (str "[COMPILATION ERROR] boom")
    ⟨str "[FAIL] New", .exitErr 2⟩ [] [str "[FAIL] Old"] [] 1 (by decide) (by decide)
